import Mathlib

/-!
Shallow embedding of the two-sample t-test engine from the repository
(files t_test/t_test.py and t_test/twosample_ttest.py).

Modelling conventions:
* Python floats are embedded as elements of a linear ordered field
  (instantiated at ℚ for executable witnesses and at ℝ where exact square
  roots are required).
* Python float division raises ZeroDivisionError on a zero denominator;
  it is embedded as `pydiv`, returning `Except`.
* Library routines (math.sqrt / numpy.sqrt, scipy.stats.t.cdf,
  scipy.stats.t.ppf) are taken as function parameters of the embedded
  code; theorems that depend on their analytic properties state those
  properties as hypotheses, and witnesses instantiate them with concrete
  rational or real functions.
* Python sets of keys are embedded as lists with membership-based set
  operations; Python dicts as association lists.
-/

deriving instance DecidableEq for Except

namespace TTest

/-- Embedded Python exception outcomes relevant to the engine.  The
KeyError raised by check_data_matching carries the structured content of
its message: the keys of sample 1 absent from sample 2 and the keys of
sample 2 absent from sample 1, each present only when the corresponding
difference is non-empty. -/
inductive PyError where
  | typeError
  | valueError
  | keyError (missFrom2 : Option (List String)) (missFrom1 : Option (List String))
  | keyLookup (k : String)
  | zeroDivisionError
deriving DecidableEq

section Field

variable {α : Type} [LinearOrderedField α]

/-- Python scalar division: raises ZeroDivisionError when the denominator
is zero, otherwise yields the exact quotient. -/
def pydiv (x y : α) : Except PyError α :=
  if y = 0 then .error .zeroDivisionError else .ok (x / y)

end Field

/-- List-based embedding of Python set inclusion. -/
def listSubset (l1 l2 : List String) : Bool :=
  l1.all (fun k => l2.contains k)

/-- List-based embedding of Python set equality. -/
def listSetEq (l1 l2 : List String) : Bool :=
  listSubset l1 l2 && listSubset l2 l1

/-- List-based embedding of Python set difference. -/
def listDiff (l1 l2 : List String) : List String :=
  l1.filter (fun k => !(l2.contains k))

/-- List-based embedding of Python set intersection. -/
def listInter (l1 l2 : List String) : List String :=
  l1.filter (fun k => l2.contains k)

/-- Embedding of check_data_matching (identical in both modules): returns
the first key set when the two sets are equal; otherwise raises KeyError
listing both non-empty differences when skip is off, or returns the
intersection when skip is on. -/
def check_data_matching (set_1 set_2 : List String) (skip : Bool) :
    Except PyError (List String) :=
  if listSetEq set_1 set_2 then .ok set_1
  else if skip then .ok (listInter set_1 set_2)
  else .error (.keyError
    (if listDiff set_1 set_2 = [] then none else some (listDiff set_1 set_2))
    (if listDiff set_2 set_1 = [] then none else some (listDiff set_2 set_1)))

/-- Per-key result tuple of the basic variant:
(t-value, degrees of freedom, p-value, critical t-value, rejection). -/
structure TRes (α : Type) where
  t_val : α
  df : α
  p_val : α
  t_crit : α
  reject : Bool
deriving DecidableEq

/-- Per-key result tuple of the extended variant, additionally carrying
the two relative standard errors. -/
structure TResExt (α : Type) where
  t_val : α
  df : α
  p_val : α
  t_crit : α
  reject : Bool
  rse1 : α
  rse2 : α
deriving DecidableEq

/-- Evaluate a fallible per-key computation over a list of keys,
stopping at the first raised exception (the Python for-loop over the
reconciled key set). -/
def mapMKeys {β : Type} (f : String → Except PyError β) :
    List String → Except PyError (List (String × β))
  | [] => .ok []
  | k :: ks =>
    match f k with
    | .error e => .error e
    | .ok r =>
      match mapMKeys f ks with
      | .error e => .error e
      | .ok rest => .ok ((k, r) :: rest)

section Field

variable {α : Type} [LinearOrderedField α]

namespace Basic

/-- Embedding of two_sample_t from t_test.py: the un-pooled two-sample
t-statistic; the division is Python float division and raises on a zero
denominator (both standard errors zero). -/
def two_sample_t (sq : α → α) (m1 se1 m2 se2 d : α) : Except PyError α :=
  pydiv ((m1 - m2) - d) (sq (se1 ^ 2 + se2 ^ 2))

/-- The per-key body of the loop in the basic t_test: compute the
t-value, degrees of freedom, p-value, critical value and the rejection
flag (False when the absolute t-value is at most the critical value). -/
def keyStat (sq : α → α) (tCdf tPpf : α → α → α) (alpha d : α)
    (e1 e2 : α × α × α) : Except PyError (TRes α) :=
  match two_sample_t sq e1.1 e1.2.1 e2.1 e2.2.1 d with
  | .error e => .error e
  | .ok t_val =>
    let df := e1.2.2 + e2.2.2 - 2
    let p_val := (1 - tCdf |t_val| df) * 2
    let t_crit := tPpf (1 - alpha / 2) df
    .ok ⟨t_val, df, p_val, t_crit, if |t_val| ≤ t_crit then false else true⟩

/-- Embedding of the basic t_test from t_test.py.  The structural checks
of check_input_args are enforced by the types of the embedding; the
remaining behavioral check is the significance-level range test, which
raises ValueError.  Key reconciliation then drives a per-key loop; a key
of the reconciled set absent from either dict would raise KeyError on
subscription (never reachable after reconciliation). -/
def t_test (sq : α → α) (tCdf tPpf : α → α → α)
    (sample_1 sample_2 : List (String × (α × α × α))) (alpha d : α)
    (skip : Bool) : Except PyError (List (String × TRes α)) :=
  if 0 < alpha ∧ alpha < 1 then
    match check_data_matching (sample_1.map Prod.fst) (sample_2.map Prod.fst)
        skip with
    | .error e => .error e
    | .ok key_set =>
      mapMKeys (fun key =>
        match sample_1.lookup key, sample_2.lookup key with
        | some e1, some e2 => keyStat sq tCdf tPpf alpha d e1 e2
        | _, _ => .error (.keyLookup key)) key_set
  else .error .valueError

end Basic

end Field

section Floor

variable {α : Type} [LinearOrderedField α] [FloorRing α]

/-- Rounding of a real quantity to the nearest integer with ties going
to the even neighbor, the rule used by the Python built-in round. -/
def roundHalfEven (y : α) : ℤ :=
  if Int.fract y = 1 / 2 then (if Even ⌊y⌋ then ⌊y⌋ else ⌊y⌋ + 1)
  else round y

/-- Embedding of the Python built-in round(x, nd) on exact values:
round half to even at the nd-th decimal digit. -/
def pyround (nd : ℕ) (x : α) : α :=
  ((roundHalfEven (x * 10 ^ nd) : ℤ) : α) / 10 ^ nd

namespace Ext

/-- Embedding of calc_rse from twosample_ttest.py: the relative standard
error in percent, rounded to NDIGITS - 2 = 3 decimal digits; the Python
division raises when the mean is zero. -/
def calc_rse (m sem : α) : Except PyError α :=
  match pydiv sem m with
  | .error e => .error e
  | .ok q => .ok (pyround 3 (q * 100))

/-- Embedding of calc_twosample_tvalue from twosample_ttest.py: the
pooled-variance two-sample t-value rounded to NDIGITS = 5 decimal
digits.  The divisions by (n1 + n2 - 2), n1 and n2 are Python scalar
divisions and raise on zero; the final quotient divides by a NumPy
float, which on a zero denominator yields a non-finite float rather
than raising, a behavior outside the exact-value embedding, so it is
modelled as total field division (the theorems below keep away from
that branch through positivity hypotheses). -/
def calc_twosample_tvalue (sq : α → α) (m1 sd1 n1 m2 sd2 n2 d : α) :
    Except PyError α :=
  match pydiv ((n1 - 1) * sd1 ^ 2 + (n2 - 1) * sd2 ^ 2) (n1 + n2 - 2) with
  | .error e => .error e
  | .ok v =>
    match pydiv 1 n1 with
    | .error e => .error e
    | .ok i1 =>
      match pydiv 1 n2 with
      | .error e => .error e
      | .ok i2 =>
        .ok (pyround 5 (((m1 - m2) - d) / (sq v * sq (i1 + i2))))

/-- The per-key body of the loop in the extended t_test: relative
standard errors, standard deviations recovered from standard errors,
rounded t-value, p-value, rounded critical value and the rejection
flag. -/
def keyStat (sq : α → α) (tCdf tPpf : α → α → α) (alpha d : α)
    (e1 e2 : α × α × α) : Except PyError (TResExt α) :=
  match calc_rse e1.1 e1.2.1 with
  | .error e => .error e
  | .ok rse1 =>
    match calc_rse e2.1 e2.2.1 with
    | .error e => .error e
    | .ok rse2 =>
      let sd1 := e1.2.1 * sq e1.2.2
      let sd2 := e2.2.1 * sq e2.2.2
      match calc_twosample_tvalue sq e1.1 sd1 e1.2.2 e2.1 sd2 e2.2.2 d with
      | .error e => .error e
      | .ok t_val =>
        let df := e1.2.2 + e2.2.2 - 2
        let p_val := (1 - tCdf |t_val| df) * 2
        let t_crit := pyround 5 (tPpf (1 - alpha / 2) df)
        .ok ⟨t_val, df, p_val, t_crit, decide (t_crit < |t_val|), rse1, rse2⟩

/-- Embedding of the extended t_test from twosample_ttest.py, with the
same input-validation and key-reconciliation structure as the basic
variant. -/
def t_test (sq : α → α) (tCdf tPpf : α → α → α)
    (sample_1 sample_2 : List (String × (α × α × α))) (alpha d : α)
    (skip : Bool) : Except PyError (List (String × TResExt α)) :=
  if 0 < alpha ∧ alpha < 1 then
    match check_data_matching (sample_1.map Prod.fst) (sample_2.map Prod.fst)
        skip with
    | .error e => .error e
    | .ok key_set =>
      mapMKeys (fun key =>
        match sample_1.lookup key, sample_2.lookup key with
        | some e1, some e2 => keyStat sq tCdf tPpf alpha d e1 e2
        | _, _ => .error (.keyLookup key)) key_set
  else .error .valueError

end Ext

end Floor

/-- Universe of Python values seen by check_input_args, sufficient to
express every type dispatch the validator performs.  Distinct
constructors embed the distinct Python runtime types; Python booleans
are a subclass of int and therefore satisfy isinstance checks against
int. -/
inductive PyVal where
  | pInt (n : ℤ)
  | pFloat (q : ℚ)
  | pBool (b : Bool)
  | pStr (s : String)
  | pList (l : List PyVal)
  | pDict (entries : List (String × PyVal))

/-- Python isinstance(v, (float, int)); booleans pass as ints. -/
def isNum : PyVal → Bool
  | .pFloat _ => true
  | .pInt _ => true
  | .pBool _ => true
  | _ => false

/-- Python isinstance(v, float); ints and booleans do not pass. -/
def isFloat : PyVal → Bool
  | .pFloat _ => true
  | _ => false

/-- Python isinstance(v, bool). -/
def isBool : PyVal → Bool
  | .pBool _ => true
  | _ => false

/-- The per-value check of check_input_args: a list of exactly three
elements, each a float or an int. -/
def valOK : PyVal → Bool
  | .pList l => l.length == 3 && l.all isNum
  | _ => false

/-- The per-sample check of check_input_args: a dict whose every value
passes the per-value check. -/
def sampleOK : PyVal → Bool
  | .pDict entries => entries.all (fun kv => valOK kv.2)
  | _ => false

/-- The significance-level range check: a float strictly between 0
and 1. -/
def alphaRangeOK : PyVal → Bool
  | .pFloat q => decide (0 < q) && decide (q < 1)
  | _ => false

/-- Embedding of check_input_args (identical in both modules): the
checks run in source order — sample 1 structure, sample 2 structure,
alpha type, alpha range, d type, skip type — and the first failing
check raises (TypeError for every structural or type violation,
ValueError for the alpha range). -/
def check_input_args (sample_1 sample_2 alpha d skip : PyVal) :
    Except PyError Unit :=
  if !sampleOK sample_1 then .error .typeError
  else if !sampleOK sample_2 then .error .typeError
  else if !isFloat alpha then .error .typeError
  else if !alphaRangeOK alpha then .error .valueError
  else if !isNum d then .error .typeError
  else if !isBool skip then .error .typeError
  else .ok ()

/-- Concrete square-root stand-in on ℚ used by executable witnesses; it
agrees with the true square root at the finitely many radicands the
witnesses reach. -/
def sqrtModel (x : ℚ) : ℚ :=
  if x = 0 then 0
  else if x = 1 / 4 then 1 / 2
  else if x = 1 / 2 then 707 / 1000
  else 1

/-- Concrete stand-in on ℚ for the Student t cumulative distribution
function used by executable witnesses: a strictly increasing map of ℚ
onto (0, 1) fixing 1/2 at 0, independent of the degrees of freedom. -/
def cdfModel (x _df : ℚ) : ℚ :=
  1 / 2 + x / (2 * (1 + |x|))

/-- Exact inverse of cdfModel on (0, 1), the quantile-function stand-in
paired with it in witnesses. -/
def ppfModel (q _df : ℚ) : ℚ :=
  (2 * q - 1) / (1 - |2 * q - 1|)

section Lemmas

variable {β : Type} {f : String → Except PyError β}

/-- Every pair of a successful key loop pairs a key of the input list
with the successful value of the body at that key. -/
theorem mapMKeys_ok_mem : ∀ {ks : List String}
    {l : List (String × β)}, mapMKeys f ks = .ok l →
    ∀ p ∈ l, p.1 ∈ ks ∧ f p.1 = .ok p.2 := by
  intro ks
  induction ks with
  | nil =>
    intro l h p hp
    simp only [mapMKeys, Except.ok.injEq] at h
    subst h
    simp at hp
  | cons k ks ih =>
    intro l h p hp
    simp only [mapMKeys] at h
    cases hf : f k with
    | error e => rw [hf] at h; exact absurd h (by simp)
    | ok r =>
      rw [hf] at h
      cases hrec : mapMKeys f ks with
      | error e => rw [hrec] at h; exact absurd h (by simp)
      | ok rest =>
        rw [hrec] at h
        simp only [Except.ok.injEq] at h
        subst h
        rcases List.mem_cons.mp hp with hp | hp
        · subst hp
          exact ⟨List.mem_cons_self _ _, hf⟩
        · rcases ih hrec p hp with ⟨h1, h2⟩
          exact ⟨List.mem_cons_of_mem _ h1, h2⟩

/-- A successful key loop visits exactly the input keys, in order. -/
theorem mapMKeys_ok_keys : ∀ {ks : List String}
    {l : List (String × β)}, mapMKeys f ks = .ok l →
    l.map Prod.fst = ks := by
  intro ks
  induction ks with
  | nil =>
    intro l h
    simp only [mapMKeys, Except.ok.injEq] at h
    subst h
    rfl
  | cons k ks ih =>
    intro l h
    simp only [mapMKeys] at h
    cases hf : f k with
    | error e => rw [hf] at h; exact absurd h (by simp)
    | ok r =>
      rw [hf] at h
      cases hrec : mapMKeys f ks with
      | error e => rw [hrec] at h; exact absurd h (by simp)
      | ok rest =>
        rw [hrec] at h
        simp only [Except.ok.injEq] at h
        subst h
        simp [ih hrec]

/-- If the body either succeeds or raises ZeroDivisionError at every
key, and raises at some key, then the loop raises ZeroDivisionError. -/
theorem mapMKeys_error_zeroDiv : ∀ {ks : List String},
    (∀ k ∈ ks, (∃ r, f k = .ok r) ∨ f k = .error .zeroDivisionError) →
    (∃ k ∈ ks, f k = .error .zeroDivisionError) →
    mapMKeys f ks = .error .zeroDivisionError := by
  intro ks
  induction ks with
  | nil =>
    intro _ hex
    simp at hex
  | cons k ks ih =>
    intro hall hex
    simp only [mapMKeys]
    rcases hall k (List.mem_cons_self _ _) with ⟨r, hr⟩ | hr
    · rw [hr]
      have hex2 : ∃ j ∈ ks, f j = .error .zeroDivisionError := by
        rcases hex with ⟨j, hj, hjf⟩
        rcases List.mem_cons.mp hj with rfl | hj2
        · rw [hr] at hjf; exact absurd hjf (by simp)
        · exact ⟨j, hj2, hjf⟩
      rw [ih (fun j hj => hall j (List.mem_cons_of_mem _ hj)) hex2]
    · rw [hr]

/-- The list embedding of set inclusion agrees with membership. -/
theorem listSubset_iff {a b : List String} :
    listSubset a b = true ↔ ∀ k ∈ a, k ∈ b := by
  simp [listSubset]

/-- The list embedding of set equality agrees with mutual inclusion of
memberships. -/
theorem listSetEq_iff {a b : List String} :
    listSetEq a b = true ↔ ((∀ k ∈ a, k ∈ b) ∧ (∀ k ∈ b, k ∈ a)) := by
  simp [listSetEq, listSubset]

/-- Membership in the list embedding of set difference. -/
theorem mem_listDiff_iff {a b : List String} {k : String} :
    k ∈ listDiff a b ↔ (k ∈ a ∧ k ∉ b) := by
  simp [listDiff, List.mem_filter]

/-- Membership in the list embedding of set intersection. -/
theorem mem_listInter_iff {a b : List String} {k : String} :
    k ∈ listInter a b ↔ (k ∈ a ∧ k ∈ b) := by
  simp [listInter, List.mem_filter]

/-- A key occurring in the key list of an association list has a
successful lookup. -/
theorem lookup_some_of_mem_keys {γ : Type} {l : List (String × γ)}
    {k : String} (h : k ∈ l.map Prod.fst) : ∃ v, l.lookup k = some v := by
  induction l with
  | nil => simp at h
  | cons kv l ih =>
    by_cases he : k = kv.1
    · exact ⟨kv.2, by simp [List.lookup, he]⟩
    · have h2 : k ∈ l.map Prod.fst := by
        rcases List.mem_map.mp h with ⟨q, hq, hqk⟩
        rcases List.mem_cons.mp hq with rfl | hq2
        · exact absurd hqk.symm he
        · exact List.mem_map.mpr ⟨q, hq2, hqk⟩
      rcases ih h2 with ⟨v, hv⟩
      refine ⟨v, ?_⟩
      simp only [List.lookup, beq_false_of_ne he]
      exact hv

/-- A successful lookup means the key occurs in the key list. -/
theorem mem_keys_of_lookup_some {γ : Type} {l : List (String × γ)}
    {k : String} {v : γ} (h : l.lookup k = some v) :
    k ∈ l.map Prod.fst := by
  induction l with
  | nil => simp [List.lookup] at h
  | cons kv l ih =>
    simp only [List.lookup] at h
    cases hbeq : k == kv.1 with
    | true =>
      simp only [List.map_cons, List.mem_cons]
      exact Or.inl (eq_of_beq hbeq)
    | false =>
      rw [hbeq] at h
      simp only [List.map_cons, List.mem_cons]
      exact Or.inr (ih h)

/-- A successful check_data_matching returns either the first set (the
two sets were equal) or, in skip mode, the intersection. -/
theorem check_data_matching_ok_cases {set_1 set_2 : List String}
    {skip : Bool} {ks : List String}
    (h : check_data_matching set_1 set_2 skip = .ok ks) :
    (listSetEq set_1 set_2 = true ∧ ks = set_1) ∨
    (listSetEq set_1 set_2 = false ∧ skip = true ∧
      ks = listInter set_1 set_2) := by
  by_cases hseq : listSetEq set_1 set_2 = true
  · left
    rw [check_data_matching, if_pos hseq] at h
    exact ⟨hseq, (Except.ok.inj h).symm⟩
  · right
    rw [check_data_matching, if_neg hseq] at h
    cases hskip : skip with
    | false =>
      rw [hskip] at h
      simp only [Bool.false_eq_true, if_false] at h
      exact absurd h (by simp)
    | true =>
      rw [hskip] at h
      simp only [if_true] at h
      exact ⟨by simpa using hseq, rfl, (Except.ok.inj h).symm⟩

end Lemmas

section ShapeLemmas

variable {α : Type} [LinearOrderedField α]

/-- A successful basic t_test run passed the significance-level range
check and produced its result list from a successful reconciliation
followed by the per-key loop. -/
theorem basic_t_test_ok_elim {sq : α → α} {tCdf tPpf : α → α → α}
    {sample_1 sample_2 : List (String × (α × α × α))} {alpha d : α}
    {skip : Bool} {stat : List (String × TRes α)}
    (h : Basic.t_test sq tCdf tPpf sample_1 sample_2 alpha d skip = .ok stat) :
    (0 < alpha ∧ alpha < 1) ∧
    ∃ ks, check_data_matching (sample_1.map Prod.fst)
        (sample_2.map Prod.fst) skip = .ok ks ∧
      mapMKeys (fun key =>
        match sample_1.lookup key, sample_2.lookup key with
        | some e1, some e2 => Basic.keyStat sq tCdf tPpf alpha d e1 e2
        | _, _ => .error (.keyLookup key)) ks = .ok stat := by
  by_cases halpha : 0 < alpha ∧ alpha < 1
  · refine ⟨halpha, ?_⟩
    rw [Basic.t_test, if_pos halpha] at h
    cases hcdm : check_data_matching (sample_1.map Prod.fst)
        (sample_2.map Prod.fst) skip with
    | error e => rw [hcdm] at h; exact absurd h (by simp)
    | ok ks => rw [hcdm] at h; exact ⟨ks, rfl, h⟩
  · rw [Basic.t_test, if_neg halpha] at h
    exact absurd h (by simp)

/-- Every entry of a successful basic t_test result is obtained from the
two stored triples of its key by the per-key formulas of the source. -/
theorem basic_mem_stat_shape {sq : α → α} {tCdf tPpf : α → α → α}
    {sample_1 sample_2 : List (String × (α × α × α))} {alpha d : α}
    {skip : Bool} {stat : List (String × TRes α)}
    (h : Basic.t_test sq tCdf tPpf sample_1 sample_2 alpha d skip = .ok stat)
    {p : String × TRes α} (hp : p ∈ stat) :
    ∃ e1 e2 t_val, sample_1.lookup p.1 = some e1 ∧
      sample_2.lookup p.1 = some e2 ∧
      Basic.two_sample_t sq e1.1 e1.2.1 e2.1 e2.2.1 d = .ok t_val ∧
      p.2 = ⟨t_val, e1.2.2 + e2.2.2 - 2,
             (1 - tCdf |t_val| (e1.2.2 + e2.2.2 - 2)) * 2,
             tPpf (1 - alpha / 2) (e1.2.2 + e2.2.2 - 2),
             if |t_val| ≤ tPpf (1 - alpha / 2) (e1.2.2 + e2.2.2 - 2)
               then false else true⟩ := by
  rcases (basic_t_test_ok_elim h).2 with ⟨ks, _, hmap⟩
  have hf := (mapMKeys_ok_mem hmap p hp).2
  cases hl1 : sample_1.lookup p.1 with
  | none => rw [hl1] at hf; exact absurd hf (by simp)
  | some e1 =>
    cases hl2 : sample_2.lookup p.1 with
    | none => rw [hl1, hl2] at hf; exact absurd hf (by simp)
    | some e2 =>
      rw [hl1, hl2] at hf
      simp only [Basic.keyStat] at hf
      cases htv : Basic.two_sample_t sq e1.1 e1.2.1 e2.1 e2.2.1 d with
      | error e => rw [htv] at hf; exact absurd hf (by simp)
      | ok t_val =>
        rw [htv] at hf
        simp only [Except.ok.injEq] at hf
        exact ⟨e1, e2, t_val, rfl, rfl, htv, hf.symm⟩

/-- A successful Python division has a nonzero denominator and yields
the exact quotient. -/
theorem pydiv_ok {x y t : α} (h : pydiv x y = .ok t) :
    y ≠ 0 ∧ t = x / y := by
  by_cases h0 : y = 0
  · rw [pydiv, if_pos h0] at h
    exact absurd h (by simp)
  · rw [pydiv, if_neg h0] at h
    exact ⟨h0, (Except.ok.inj h).symm⟩

/-- The basic per-key computation can only raise ZeroDivisionError. -/
theorem Basic.keyStat_error_zeroDiv {sq : α → α} {tCdf tPpf : α → α → α}
    {alpha d : α} {e1 e2 : α × α × α} {e : PyError}
    (h : Basic.keyStat sq tCdf tPpf alpha d e1 e2 = .error e) :
    e = .zeroDivisionError := by
  simp only [Basic.keyStat, Basic.two_sample_t, pydiv] at h
  by_cases h0 : sq (e1.2.1 ^ 2 + e2.2.1 ^ 2) = 0
  · rw [if_pos h0] at h
    exact (Except.error.inj h).symm
  · rw [if_neg h0] at h
    exact absurd h (by simp)

variable [FloorRing α]

/-- Round-half-even of zero is zero. -/
theorem roundHalfEven_zero : roundHalfEven (0 : α) = 0 := by
  rw [roundHalfEven, if_neg (by norm_num), round_zero]

/-- Python round of zero is zero. -/
theorem pyround_zero (nd : ℕ) : pyround nd (0 : α) = 0 := by
  rw [pyround, zero_mul, roundHalfEven_zero]
  simp

/-- Round-half-even of a nonnegative quantity is nonnegative. -/
theorem roundHalfEven_nonneg {y : α} (hy : 0 ≤ y) :
    0 ≤ roundHalfEven y := by
  rw [roundHalfEven]
  by_cases ht : Int.fract y = 1 / 2
  · rw [if_pos ht]
    have hfl : 0 ≤ ⌊y⌋ := Int.floor_nonneg.mpr hy
    by_cases he : Even ⌊y⌋
    · rw [if_pos he]; exact hfl
    · rw [if_neg he]; omega
  · rw [if_neg ht, round_eq]
    exact Int.floor_nonneg.mpr (by linarith)

/-- Python round of a nonnegative quantity is nonnegative. -/
theorem pyround_nonneg {nd : ℕ} {y : α} (hy : 0 ≤ y) :
    0 ≤ pyround nd y := by
  rw [pyround]
  have h1 : (0 : α) ≤ ((roundHalfEven (y * 10 ^ nd) : ℤ) : α) := by
    exact_mod_cast roundHalfEven_nonneg (by positivity)
  positivity

/-- In the open unit interval around an integer, round-half-even agrees
with that integer (no tie can occur there). -/
theorem roundHalfEven_eq_of_bounds {y : α} {n : ℤ}
    (h1 : (n : α) - 1 / 2 < y) (h2 : y < (n : α) + 1 / 2) :
    roundHalfEven y = n := by
  have hnotie : Int.fract y ≠ 1 / 2 := by
    intro ht
    have hadd := Int.floor_add_fract y
    rw [ht] at hadd
    have hb1 : ((n - 1 : ℤ) : α) < (⌊y⌋ : α) := by
      push_cast
      linarith
    have hb2 : ((⌊y⌋ : α)) < ((n : ℤ) : α) := by linarith
    have hi1 : (n : ℤ) - 1 < ⌊y⌋ := by exact_mod_cast hb1
    have hi2 : ⌊y⌋ < n := by exact_mod_cast hb2
    omega
  rw [roundHalfEven, if_neg hnotie, round_eq]
  refine Int.floor_eq_iff.mpr ⟨by linarith, by linarith⟩

/-- A successful extended t_test run passed the significance-level range
check and produced its result list from a successful reconciliation
followed by the per-key loop. -/
theorem ext_t_test_ok_elim {sq : α → α} {tCdf tPpf : α → α → α}
    {sample_1 sample_2 : List (String × (α × α × α))} {alpha d : α}
    {skip : Bool} {stat : List (String × TResExt α)}
    (h : Ext.t_test sq tCdf tPpf sample_1 sample_2 alpha d skip = .ok stat) :
    (0 < alpha ∧ alpha < 1) ∧
    ∃ ks, check_data_matching (sample_1.map Prod.fst)
        (sample_2.map Prod.fst) skip = .ok ks ∧
      mapMKeys (fun key =>
        match sample_1.lookup key, sample_2.lookup key with
        | some e1, some e2 => Ext.keyStat sq tCdf tPpf alpha d e1 e2
        | _, _ => .error (.keyLookup key)) ks = .ok stat := by
  by_cases halpha : 0 < alpha ∧ alpha < 1
  · refine ⟨halpha, ?_⟩
    rw [Ext.t_test, if_pos halpha] at h
    cases hcdm : check_data_matching (sample_1.map Prod.fst)
        (sample_2.map Prod.fst) skip with
    | error e => rw [hcdm] at h; exact absurd h (by simp)
    | ok ks => rw [hcdm] at h; exact ⟨ks, rfl, h⟩
  · rw [Ext.t_test, if_neg halpha] at h
    exact absurd h (by simp)

/-- Every entry of a successful extended t_test result is obtained from
the two stored triples of its key by the per-key formulas of the
source. -/
theorem ext_mem_stat_shape {sq : α → α} {tCdf tPpf : α → α → α}
    {sample_1 sample_2 : List (String × (α × α × α))} {alpha d : α}
    {skip : Bool} {stat : List (String × TResExt α)}
    (h : Ext.t_test sq tCdf tPpf sample_1 sample_2 alpha d skip = .ok stat)
    {p : String × TResExt α} (hp : p ∈ stat) :
    ∃ e1 e2 rse1 rse2 t_val, sample_1.lookup p.1 = some e1 ∧
      sample_2.lookup p.1 = some e2 ∧
      Ext.calc_rse e1.1 e1.2.1 = .ok rse1 ∧
      Ext.calc_rse e2.1 e2.2.1 = .ok rse2 ∧
      Ext.calc_twosample_tvalue sq e1.1 (e1.2.1 * sq e1.2.2) e1.2.2
        e2.1 (e2.2.1 * sq e2.2.2) e2.2.2 d = .ok t_val ∧
      p.2 = ⟨t_val, e1.2.2 + e2.2.2 - 2,
             (1 - tCdf |t_val| (e1.2.2 + e2.2.2 - 2)) * 2,
             pyround 5 (tPpf (1 - alpha / 2) (e1.2.2 + e2.2.2 - 2)),
             decide (pyround 5 (tPpf (1 - alpha / 2) (e1.2.2 + e2.2.2 - 2))
               < |t_val|), rse1, rse2⟩ := by
  rcases (ext_t_test_ok_elim h).2 with ⟨ks, _, hmap⟩
  have hf := (mapMKeys_ok_mem hmap p hp).2
  cases hl1 : sample_1.lookup p.1 with
  | none => rw [hl1] at hf; exact absurd hf (by simp)
  | some e1 =>
    cases hl2 : sample_2.lookup p.1 with
    | none => rw [hl1, hl2] at hf; exact absurd hf (by simp)
    | some e2 =>
      rw [hl1, hl2] at hf
      simp only [Ext.keyStat] at hf
      cases hr1 : Ext.calc_rse e1.1 e1.2.1 with
      | error e => rw [hr1] at hf; exact absurd hf (by simp)
      | ok rse1 =>
        rw [hr1] at hf
        cases hr2 : Ext.calc_rse e2.1 e2.2.1 with
        | error e => rw [hr2] at hf; exact absurd hf (by simp)
        | ok rse2 =>
          rw [hr2] at hf
          cases htv : Ext.calc_twosample_tvalue sq e1.1 (e1.2.1 * sq e1.2.2)
              e1.2.2 e2.1 (e2.2.1 * sq e2.2.2) e2.2.2 d with
          | error e => rw [htv] at hf; exact absurd hf (by simp)
          | ok t_val =>
            rw [htv] at hf
            simp only [Except.ok.injEq] at hf
            exact ⟨e1, e2, rse1, rse2, t_val, rfl, rfl, hr1, hr2, htv, hf.symm⟩

/-- When the two per-sample arguments coincide and the discrepancy is
zero, a successful pooled t-value is zero (the numerator vanishes). -/
theorem Ext.calc_twosample_tvalue_self_zero {sq : α → α} {m sd n t : α}
    (h : Ext.calc_twosample_tvalue sq m sd n m sd n 0 = .ok t) :
    t = 0 := by
  simp only [Ext.calc_twosample_tvalue] at h
  cases h1 : pydiv ((n - 1) * sd ^ 2 + (n - 1) * sd ^ 2) (n + n - 2) with
  | error e => rw [h1] at h; exact absurd h (by simp)
  | ok v =>
    rw [h1] at h
    cases h2 : pydiv (1 : α) n with
    | error e => rw [h2] at h; exact absurd h (by simp)
    | ok i =>
      rw [h2] at h
      have ht := (Except.ok.inj h).symm
      rw [ht, sub_zero, sub_self, zero_div, pyround_zero]

end ShapeLemmas

section ModelLemmas

/-- The rational cumulative-distribution stand-in is strictly
increasing in its abscissa, for every degrees-of-freedom argument. -/
theorem cdfModel_strictMono (df : ℚ) :
    StrictMono (fun x => cdfModel x df) := by
  intro x y hxy
  simp only [cdfModel]
  have hx1 : (0 : ℚ) < 1 + |x| := by positivity
  have hy1 : (0 : ℚ) < 1 + |y| := by positivity
  have hkey : x / (2 * (1 + |x|)) < y / (2 * (1 + |y|)) := by
    rw [div_lt_div_iff₀ (by positivity) (by positivity)]
    rcases le_or_lt 0 x with hx | hx
    · rw [abs_of_nonneg hx, abs_of_nonneg (hx.trans hxy.le)]
      nlinarith
    · rcases le_or_lt 0 y with hy | hy
      · rw [abs_of_neg hx, abs_of_nonneg hy]
        nlinarith
      · rw [abs_of_neg hx, abs_of_neg hy]
        nlinarith
  linarith

/-- The rational quantile stand-in inverts the cumulative-distribution
stand-in at the upper-tail probability used with significance level one
half. -/
theorem cdfModel_ppfModel_inv_at_half (df : ℚ) :
    cdfModel (ppfModel (1 - (1/2 : ℚ) / 2) df) df = 1 - (1/2 : ℚ) / 2 := by
  rw [ppfModel]
  have h : (2 * (1 - (1/2 : ℚ) / 2) - 1) = 1/2 := by norm_num
  rw [h, abs_of_nonneg (by norm_num : (0 : ℚ) ≤ 1/2)]
  rw [cdfModel]
  norm_num

end ModelLemmas

section Claims

variable {α : Type} [LinearOrderedField α] [FloorRing α]

/-- C1: for every key in the result mapping returned by t_test (both
the basic and the extended variant), the stored rejection boolean equals
the comparison abs(t_value) > critical_t, where t_value and critical_t
are the values stored in that same result tuple. -/
theorem reject_iff_abs_t_gt_crit (sq : α → α) (tCdf tPpf : α → α → α)
    (sample_1 sample_2 : List (String × (α × α × α))) (alpha d : α)
    (skip : Bool) :
    (∀ stat, Basic.t_test sq tCdf tPpf sample_1 sample_2 alpha d skip =
        .ok stat → ∀ p ∈ stat,
      (p.2.reject = true ↔ |p.2.t_val| > p.2.t_crit)) ∧
    (∀ stat, Ext.t_test sq tCdf tPpf sample_1 sample_2 alpha d skip =
        .ok stat → ∀ p ∈ stat,
      (p.2.reject = true ↔ |p.2.t_val| > p.2.t_crit)) := by
  constructor
  · intro stat h p hp
    rcases basic_mem_stat_shape h hp with ⟨e1, e2, t_val, _, _, _, hshape⟩
    rw [hshape]
    by_cases hc : |t_val| ≤ tPpf (1 - alpha / 2) (e1.2.2 + e2.2.2 - 2)
    · simp [hc, not_lt.mpr hc]
    · simpa [hc] using not_le.mp hc
  · intro stat h p hp
    rcases ext_mem_stat_shape h hp with
      ⟨e1, e2, rse1, rse2, t_val, _, _, _, _, _, hshape⟩
    rw [hshape]
    simp [gt_iff_lt]

/-- Witness for C1: a concrete basic-variant run on rationals, with the
reject flag of its single entry matching the stored comparison. -/
theorem reject_iff_abs_t_gt_crit_witness :
    Basic.t_test sqrtModel cdfModel ppfModel [("a", (1, 1/2, 10))]
        [("a", (3/2, 1/2, 10))] (1/2) 0 false =
      .ok [("a", ⟨-500/707, 18, 707/1207, 1, false⟩)] ∧
    ((⟨-500/707, 18, 707/1207, 1, false⟩ : TRes ℚ).reject = true ↔
      |(⟨-500/707, 18, 707/1207, 1, false⟩ : TRes ℚ).t_val| >
        (⟨-500/707, 18, 707/1207, 1, false⟩ : TRes ℚ).t_crit) := by
  have heval : Basic.t_test sqrtModel cdfModel ppfModel [("a", (1, 1/2, 10))]
      [("a", (3/2, 1/2, 10))] (1/2) 0 false =
      .ok [("a", ⟨-500/707, 18, 707/1207, 1, false⟩)] := by
    norm_num [Basic.t_test, check_data_matching, listSetEq, listSubset,
      mapMKeys, List.lookup, Basic.keyStat, Basic.two_sample_t, pydiv,
      sqrtModel, cdfModel, ppfModel, abs]
  exact ⟨heval, (reject_iff_abs_t_gt_crit sqrtModel cdfModel ppfModel
      [("a", (1, 1/2, 10))] [("a", (3/2, 1/2, 10))] (1/2) 0 false).1
    [("a", ⟨-500/707, 18, 707/1207, 1, false⟩)] heval
    ("a", ⟨-500/707, 18, 707/1207, 1, false⟩) (List.mem_singleton.mpr rfl)⟩

/-- C3: check_data_matching, given two key sets and a skip flag: if the
sets are equal it returns that set; if they are unequal and skip is off
it raises a KeyError listing exactly the keys of sample 1 missing from
sample 2 and the keys of sample 2 missing from sample 1, each direction
present only when its difference is non-empty; if they are unequal and
skip is on it returns the set intersection, which is empty for disjoint
sets. -/
theorem check_data_matching_spec (set_1 set_2 : List String) :
    (listSetEq set_1 set_2 = true →
      ∀ skip, check_data_matching set_1 set_2 skip = .ok set_1) ∧
    (listSetEq set_1 set_2 = false → ∃ o1 o2,
      check_data_matching set_1 set_2 false = .error (.keyError o1 o2) ∧
      (∀ k, (∃ l, o1 = some l ∧ k ∈ l) ↔ (k ∈ set_1 ∧ k ∉ set_2)) ∧
      (o1 = none ↔ ∀ k ∈ set_1, k ∈ set_2) ∧
      (∀ k, (∃ l, o2 = some l ∧ k ∈ l) ↔ (k ∈ set_2 ∧ k ∉ set_1)) ∧
      (o2 = none ↔ ∀ k ∈ set_2, k ∈ set_1)) ∧
    (listSetEq set_1 set_2 = false →
      check_data_matching set_1 set_2 true = .ok (listInter set_1 set_2) ∧
      ∀ k, k ∈ listInter set_1 set_2 ↔ (k ∈ set_1 ∧ k ∈ set_2)) ∧
    ((∀ k, ¬(k ∈ set_1 ∧ k ∈ set_2)) →
      check_data_matching set_1 set_2 true = .ok []) := by
  have hoptA : ∀ (a b : List String),
      (∀ k, (∃ l, (if listDiff a b = [] then none
          else some (listDiff a b)) = some l ∧ k ∈ l) ↔ (k ∈ a ∧ k ∉ b)) ∧
      ((if listDiff a b = [] then none
          else some (listDiff a b)) = none ↔ ∀ k ∈ a, k ∈ b) := by
    intro a b
    constructor
    · intro k
      constructor
      · rintro ⟨l, hl, hkl⟩
        by_cases hd : listDiff a b = []
        · rw [if_pos hd] at hl
          exact absurd hl (by simp)
        · rw [if_neg hd] at hl
          exact mem_listDiff_iff.mp ((Option.some.inj hl) ▸ hkl)
      · intro hk
        have hmem := mem_listDiff_iff.mpr hk
        have hd : listDiff a b ≠ [] := by
          intro h0
          rw [h0] at hmem
          simp at hmem
        exact ⟨listDiff a b, if_neg hd, hmem⟩
    · by_cases hd : listDiff a b = []
      · rw [if_pos hd]
        simp only [true_iff]
        intro k hk
        by_contra hk2
        have hmem := mem_listDiff_iff.mpr ⟨hk, hk2⟩
        rw [hd] at hmem
        simp at hmem
      · rw [if_neg hd]
        refine iff_of_false (by simp) ?_
        intro hall
        rcases List.exists_mem_of_ne_nil _ hd with ⟨k, hk⟩
        rcases mem_listDiff_iff.mp hk with ⟨hk1, hk2⟩
        exact hk2 (hall k hk1)
  refine ⟨?_, ?_, ?_, ?_⟩
  · intro hseq skip
    rw [check_data_matching, if_pos hseq]
  · intro hseq
    refine ⟨_, _, ?_, (hoptA set_1 set_2).1, (hoptA set_1 set_2).2,
      (hoptA set_2 set_1).1, (hoptA set_2 set_1).2⟩
    rw [check_data_matching, if_neg (by simp [hseq])]
    rfl
  · intro hseq
    refine ⟨?_, fun k => mem_listInter_iff⟩
    rw [check_data_matching, if_neg (by simp [hseq]), if_pos rfl]
  · intro hdisj
    by_cases hseq : listSetEq set_1 set_2 = true
    · rw [check_data_matching, if_pos hseq]
      have h1 : set_1 = [] := by
        cases h0 : set_1 with
        | nil => rfl
        | cons k l =>
          have hk1 : k ∈ set_1 := by rw [h0]; exact List.mem_cons_self _ _
          have hk2 := (listSetEq_iff.mp hseq).1 k hk1
          exact absurd ⟨hk1, hk2⟩ (hdisj k)
      rw [h1]
    · rw [check_data_matching, if_neg hseq, if_pos rfl]
      have h1 : listInter set_1 set_2 = [] := by
        cases h0 : listInter set_1 set_2 with
        | nil => rfl
        | cons k l =>
          have hk : k ∈ listInter set_1 set_2 := by
            rw [h0]; exact List.mem_cons_self _ _
          exact absurd (mem_listInter_iff.mp hk) (hdisj k)
      rw [h1]

/-- Witness for C3: the key sets a b c versus a b are unequal, and in
skip mode reconciliation returns their intersection. -/
theorem check_data_matching_spec_witness :
    listSetEq ["a", "b", "c"] ["a", "b"] = false ∧
    check_data_matching ["a", "b", "c"] ["a", "b"] true =
      .ok (listInter ["a", "b", "c"] ["a", "b"]) := by
  refine ⟨by decide, ?_⟩
  exact ((check_data_matching_spec ["a", "b", "c"] ["a", "b"]).2.2.1
    (by decide)).1

/-- C6 counterexample: the claim says check_input_args raises ValueError
exactly when alpha is a float outside (0, 1); here alpha is the float 2,
outside (0, 1), yet the outcome is TypeError because the structural
check of sample 1 runs first. -/
theorem check_input_args_not_valueError_on_bad_sample :
    isFloat (.pFloat 2) = true ∧ alphaRangeOK (.pFloat 2) = false ∧
    check_input_args (.pInt 0) (.pDict []) (.pFloat 2) (.pInt 0)
      (.pBool false) = .error .typeError := by
  refine ⟨rfl, ?_, rfl⟩
  norm_num [alphaRangeOK]

/-- C6 amended: the full outcome characterization of check_input_args.
It returns successfully exactly when every condition holds; it raises
ValueError exactly when both samples pass the structural checks and
alpha is a float outside (0, 1); it raises TypeError exactly when the
first failing check in source order is a type check (sample structure,
alpha type, d type, skip type). -/
theorem check_input_args_characterization (s1 s2 a d sk : PyVal) :
    (check_input_args s1 s2 a d sk = .ok () ↔
      (sampleOK s1 = true ∧ sampleOK s2 = true ∧ isFloat a = true ∧
       alphaRangeOK a = true ∧ isNum d = true ∧ isBool sk = true)) ∧
    (check_input_args s1 s2 a d sk = .error .valueError ↔
      (sampleOK s1 = true ∧ sampleOK s2 = true ∧ isFloat a = true ∧
       alphaRangeOK a = false)) ∧
    (check_input_args s1 s2 a d sk = .error .typeError ↔
      (sampleOK s1 = false ∨
       (sampleOK s1 = true ∧ sampleOK s2 = false) ∨
       (sampleOK s1 = true ∧ sampleOK s2 = true ∧ isFloat a = false) ∨
       (sampleOK s1 = true ∧ sampleOK s2 = true ∧ isFloat a = true ∧
        alphaRangeOK a = true ∧ isNum d = false) ∨
       (sampleOK s1 = true ∧ sampleOK s2 = true ∧ isFloat a = true ∧
        alphaRangeOK a = true ∧ isNum d = true ∧ isBool sk = false))) := by
  cases h1 : sampleOK s1 <;> cases h2 : sampleOK s2 <;>
    cases h3 : isFloat a <;> cases h4 : alphaRangeOK a <;>
    cases h5 : isNum d <;> cases h6 : isBool sk <;>
    simp [check_input_args, h1, h2, h3, h4, h5, h6]

omit [FloorRing α] in
/-- C9: whenever both stored standard errors of a common key are zero,
the basic two_sample_t raises ZeroDivisionError, and the basic t_test on
such an input (passing validation, with matching key sets) propagates
that uncaught ZeroDivisionError instead of returning a result. -/
theorem se_zero_raises_zeroDivision (sq : α → α) (tCdf tPpf : α → α → α)
    (sample_1 sample_2 : List (String × (α × α × α))) (alpha d : α)
    (skip : Bool) (k : String) (m1 n1 m2 n2 : α)
    (hsq : sq 0 = 0)
    (halpha : 0 < alpha ∧ alpha < 1)
    (hseq : listSetEq (sample_1.map Prod.fst) (sample_2.map Prod.fst) = true)
    (hl1 : sample_1.lookup k = some (m1, 0, n1))
    (hl2 : sample_2.lookup k = some (m2, 0, n2)) :
    Basic.two_sample_t sq m1 (0 : α) m2 0 d = .error .zeroDivisionError ∧
    Basic.t_test sq tCdf tPpf sample_1 sample_2 alpha d skip =
      .error .zeroDivisionError := by
  have h00 : (0 : α) ^ 2 + (0 : α) ^ 2 = 0 := by norm_num
  have htst : Basic.two_sample_t sq m1 (0 : α) m2 0 d =
      .error .zeroDivisionError := by
    rw [Basic.two_sample_t, h00, hsq, pydiv, if_pos rfl]
  refine ⟨htst, ?_⟩
  rw [Basic.t_test, if_pos halpha]
  have hcdm : check_data_matching (sample_1.map Prod.fst)
      (sample_2.map Prod.fst) skip = .ok (sample_1.map Prod.fst) := by
    rw [check_data_matching, if_pos hseq]
  rw [hcdm]
  apply mapMKeys_error_zeroDiv
  · intro j hj
    rcases lookup_some_of_mem_keys hj with ⟨v1, hv1⟩
    have hj2 : j ∈ sample_2.map Prod.fst := (listSetEq_iff.mp hseq).1 j hj
    rcases lookup_some_of_mem_keys hj2 with ⟨v2, hv2⟩
    cases hks : Basic.keyStat sq tCdf tPpf alpha d v1 v2 with
    | ok r =>
      exact Or.inl ⟨r, by simp [hv1, hv2, hks]⟩
    | error e =>
      refine Or.inr ?_
      rw [Basic.keyStat_error_zeroDiv hks] at hks
      simp [hv1, hv2, hks]
  · refine ⟨k, mem_keys_of_lookup_some hl1, ?_⟩
    have hkey : Basic.keyStat sq tCdf tPpf alpha d (m1, 0, n1) (m2, 0, n2) =
        .error .zeroDivisionError := by
      simp only [Basic.keyStat]
      rw [show Basic.two_sample_t sq (m1, (0 : α), n1).1 (m1, (0 : α), n1).2.1
          (m2, (0 : α), n2).1 (m2, (0 : α), n2).2.1 d =
          .error .zeroDivisionError from htst]
    simp [hl1, hl2, hkey]

/-- Witness for C9: a concrete rational input with a zero standard
error on the single common key makes the basic t_test raise
ZeroDivisionError. -/
theorem se_zero_raises_zeroDivision_witness :
    (sqrtModel 0 = 0 ∧ (0 < (1/2 : ℚ) ∧ (1/2 : ℚ) < 1) ∧
     listSetEq (([("a", (1, 0, 10))] :
         List (String × (ℚ × ℚ × ℚ))).map Prod.fst)
       (([("a", (1, 0, 10))] :
         List (String × (ℚ × ℚ × ℚ))).map Prod.fst) = true ∧
     ([("a", (1, 0, 10))] : List (String × (ℚ × ℚ × ℚ))).lookup "a" =
       some (1, 0, 10)) ∧
    Basic.t_test sqrtModel cdfModel ppfModel [("a", (1, 0, 10))]
      [("a", (1, 0, 10))] (1/2) 0 false = .error .zeroDivisionError := by
  have hsq : sqrtModel 0 = 0 := by norm_num [sqrtModel]
  have hl : ([("a", (1, 0, 10))] : List (String × (ℚ × ℚ × ℚ))).lookup "a" =
      some (1, 0, 10) := by
    simp [List.lookup]
  exact ⟨⟨hsq, by norm_num, by decide, hl⟩,
    (se_zero_raises_zeroDivision sqrtModel cdfModel ppfModel
      [("a", (1, 0, 10))] [("a", (1, 0, 10))] (1/2) 0 false "a" 1 10 1 10
      hsq (by norm_num) (by decide) hl hl).2⟩

/-- C10: the key list of the result mapping of t_test (both variants) is
exactly the reconciled key set: the keys of the first sample when the two
key sets are equal, and the intersection of the two key lists in skip
mode. -/
theorem stat_keys_eq_reconciled (sq : α → α) (tCdf tPpf : α → α → α)
    (sample_1 sample_2 : List (String × (α × α × α))) (alpha d : α)
    (skip : Bool) :
    (∀ stat, Basic.t_test sq tCdf tPpf sample_1 sample_2 alpha d skip =
        .ok stat →
      (listSetEq (sample_1.map Prod.fst) (sample_2.map Prod.fst) = true →
        stat.map Prod.fst = sample_1.map Prod.fst) ∧
      (skip = true → stat.map Prod.fst =
        listInter (sample_1.map Prod.fst) (sample_2.map Prod.fst))) ∧
    (∀ stat, Ext.t_test sq tCdf tPpf sample_1 sample_2 alpha d skip =
        .ok stat →
      (listSetEq (sample_1.map Prod.fst) (sample_2.map Prod.fst) = true →
        stat.map Prod.fst = sample_1.map Prod.fst) ∧
      (skip = true → stat.map Prod.fst =
        listInter (sample_1.map Prod.fst) (sample_2.map Prod.fst))) := by
  have hinter : listSetEq (sample_1.map Prod.fst)
      (sample_2.map Prod.fst) = true →
      listInter (sample_1.map Prod.fst) (sample_2.map Prod.fst) =
        sample_1.map Prod.fst := by
    intro hseq
    refine List.filter_eq_self.mpr ?_
    intro k hk
    have hmem := (listSetEq_iff.mp hseq).1 k hk
    simpa using hmem
  constructor
  · intro stat h
    rcases (basic_t_test_ok_elim h).2 with ⟨ks, hcdm, hmap⟩
    have hkeys := mapMKeys_ok_keys hmap
    rcases check_data_matching_ok_cases hcdm with ⟨hseq, rfl⟩ |
      ⟨hseq, hskip, rfl⟩
    · exact ⟨fun _ => hkeys, fun _ => by rw [hkeys, hinter hseq]⟩
    · exact ⟨fun h2 => absurd h2 (by simp [hseq]), fun _ => hkeys⟩
  · intro stat h
    rcases (ext_t_test_ok_elim h).2 with ⟨ks, hcdm, hmap⟩
    have hkeys := mapMKeys_ok_keys hmap
    rcases check_data_matching_ok_cases hcdm with ⟨hseq, rfl⟩ |
      ⟨hseq, hskip, rfl⟩
    · exact ⟨fun _ => hkeys, fun _ => by rw [hkeys, hinter hseq]⟩
    · exact ⟨fun h2 => absurd h2 (by simp [hseq]), fun _ => hkeys⟩

/-- Witness for C10: on a concrete run with equal key sets the result
keys are exactly the keys of the first sample. -/
theorem stat_keys_eq_reconciled_witness :
    (Basic.t_test sqrtModel cdfModel ppfModel [("a", (1, 1/2, 10))]
        [("a", (3/2, 1/2, 10))] (1/2) 0 false =
      .ok [("a", ⟨-500/707, 18, 707/1207, 1, false⟩)] ∧
     listSetEq ([("a", ((1 : ℚ), 1/2, 10))].map Prod.fst)
       ([("a", ((3/2 : ℚ), 1/2, 10))].map Prod.fst) = true) ∧
    ([("a", (⟨-500/707, 18, 707/1207, 1, false⟩ : TRes ℚ))].map Prod.fst =
      [("a", ((1 : ℚ), 1/2, 10))].map Prod.fst) := by
  have heval : Basic.t_test sqrtModel cdfModel ppfModel [("a", (1, 1/2, 10))]
      [("a", (3/2, 1/2, 10))] (1/2) 0 false =
      .ok [("a", ⟨-500/707, 18, 707/1207, 1, false⟩)] := by
    norm_num [Basic.t_test, check_data_matching, listSetEq, listSubset,
      mapMKeys, List.lookup, Basic.keyStat, Basic.two_sample_t, pydiv,
      sqrtModel, cdfModel, ppfModel, abs]
  exact ⟨⟨heval, by decide⟩,
    ((stat_keys_eq_reconciled sqrtModel cdfModel ppfModel
        [("a", (1, 1/2, 10))] [("a", (3/2, 1/2, 10))] (1/2) 0 false).1
      [("a", ⟨-500/707, 18, 707/1207, 1, false⟩)] heval).1 (by decide)⟩

/-- C7: provided the cumulative distribution function stand-in maps a
nonnegative abscissa into the interval from one half to one (a property
of every cumulative distribution function of a distribution symmetric
about zero, such as the Student t distribution), the stored p-value of
every key of a successful t_test run, in either variant, lies in the
closed interval from 0 to 1. -/
theorem pval_mem_unit_interval (sq : α → α) (tCdf tPpf : α → α → α)
    (sample_1 sample_2 : List (String × (α × α × α))) (alpha d : α)
    (skip : Bool)
    (hcdf : ∀ x df : α, 0 ≤ x → 1 / 2 ≤ tCdf x df ∧ tCdf x df ≤ 1) :
    (∀ stat, Basic.t_test sq tCdf tPpf sample_1 sample_2 alpha d skip =
        .ok stat → ∀ p ∈ stat, 0 ≤ p.2.p_val ∧ p.2.p_val ≤ 1) ∧
    (∀ stat, Ext.t_test sq tCdf tPpf sample_1 sample_2 alpha d skip =
        .ok stat → ∀ p ∈ stat, 0 ≤ p.2.p_val ∧ p.2.p_val ≤ 1) := by
  constructor
  · intro stat h p hp
    rcases basic_mem_stat_shape h hp with ⟨e1, e2, t_val, _, _, _, hshape⟩
    rw [hshape]
    rcases hcdf |t_val| (e1.2.2 + e2.2.2 - 2) (abs_nonneg _) with ⟨hc1, hc2⟩
    constructor
    · simp only []
      nlinarith
    · simp only []
      nlinarith
  · intro stat h p hp
    rcases ext_mem_stat_shape h hp with
      ⟨e1, e2, rse1, rse2, t_val, _, _, _, _, _, hshape⟩
    rw [hshape]
    rcases hcdf |t_val| (e1.2.2 + e2.2.2 - 2) (abs_nonneg _) with ⟨hc1, hc2⟩
    constructor
    · simp only []
      nlinarith
    · simp only []
      nlinarith

/-- Witness for C7: the rational cumulative-distribution stand-in
satisfies the hypothesis, and on a concrete run the stored p-value of
the single key lies in the unit interval. -/
theorem pval_mem_unit_interval_witness :
    (Basic.t_test sqrtModel cdfModel ppfModel [("a", (1, 1/2, 10))]
        [("a", (3/2, 1/2, 10))] (1/2) 0 false =
      .ok [("a", ⟨-500/707, 18, 707/1207, 1, false⟩)]) ∧
    (0 ≤ (⟨-500/707, 18, 707/1207, 1, false⟩ : TRes ℚ).p_val ∧
     (⟨-500/707, 18, 707/1207, 1, false⟩ : TRes ℚ).p_val ≤ 1) := by
  have hcdf : ∀ x df : ℚ, 0 ≤ x → 1 / 2 ≤ cdfModel x df ∧ cdfModel x df ≤ 1 := by
    intro x df hx
    rw [cdfModel, abs_of_nonneg hx]
    have h1 : (0 : ℚ) < 1 + x := by linarith
    constructor
    · have h2 : 0 ≤ x / (2 * (1 + x)) := by positivity
      linarith
    · have h2 : x / (2 * (1 + x)) ≤ 1 / 2 := by
        rw [div_le_iff₀ (by positivity)]
        linarith
      linarith
  have heval : Basic.t_test sqrtModel cdfModel ppfModel [("a", (1, 1/2, 10))]
      [("a", (3/2, 1/2, 10))] (1/2) 0 false =
      .ok [("a", ⟨-500/707, 18, 707/1207, 1, false⟩)] := by
    norm_num [Basic.t_test, check_data_matching, listSetEq, listSubset,
      mapMKeys, List.lookup, Basic.keyStat, Basic.two_sample_t, pydiv,
      sqrtModel, cdfModel, ppfModel, abs]
  exact ⟨heval,
    (pval_mem_unit_interval sqrtModel cdfModel ppfModel
        [("a", (1, 1/2, 10))] [("a", (3/2, 1/2, 10))] (1/2) 0 false hcdf).1
      [("a", ⟨-500/707, 18, 707/1207, 1, false⟩)] heval
      ("a", ⟨-500/707, 18, 707/1207, 1, false⟩) (List.mem_singleton.mpr rfl)⟩

/-- C8: provided the quantile stand-in is nonnegative at the upper-tail
probability (true of the Student t quantile at probabilities of at least
one half), a t_test call in either variant on two identical samples with
discrepancy zero stores, for every key, a t-value equal to zero and a
rejection flag equal to false. -/
theorem identical_samples_zero_t (sq : α → α) (tCdf tPpf : α → α → α)
    (sample : List (String × (α × α × α))) (alpha : α) (skip : Bool)
    (hppf : ∀ df : α, 0 ≤ tPpf (1 - alpha / 2) df) :
    (∀ stat, Basic.t_test sq tCdf tPpf sample sample alpha 0 skip =
        .ok stat → ∀ p ∈ stat, p.2.t_val = 0 ∧ p.2.reject = false) ∧
    (∀ stat, Ext.t_test sq tCdf tPpf sample sample alpha 0 skip =
        .ok stat → ∀ p ∈ stat, p.2.t_val = 0 ∧ p.2.reject = false) := by
  constructor
  · intro stat h p hp
    rcases basic_mem_stat_shape h hp with ⟨e1, e2, t_val, hl1, hl2, htv, hshape⟩
    have he : e1 = e2 := Option.some.inj (hl1 ▸ hl2)
    subst he
    rcases pydiv_ok htv with ⟨_, ht⟩
    have ht0 : t_val = 0 := by
      rw [ht, sub_zero, sub_self, zero_div]
    subst ht0
    rw [hshape]
    refine ⟨rfl, ?_⟩
    have hc := hppf (e1.2.2 + e1.2.2 - 2)
    simp only [abs_zero]
    rw [if_pos hc]
  · intro stat h p hp
    rcases ext_mem_stat_shape h hp with
      ⟨e1, e2, rse1, rse2, t_val, hl1, hl2, _, _, htv, hshape⟩
    have he : e1 = e2 := Option.some.inj (hl1 ▸ hl2)
    subst he
    have ht0 : t_val = 0 := Ext.calc_twosample_tvalue_self_zero htv
    subst ht0
    rw [hshape]
    refine ⟨rfl, ?_⟩
    have hc : 0 ≤ pyround 5 (tPpf (1 - alpha / 2) (e1.2.2 + e1.2.2 - 2)) :=
      pyround_nonneg (hppf _)
    simp only [abs_zero]
    exact decide_eq_false (not_lt.mpr hc)

/-- Witness for C8: a concrete rational run of the basic variant on two
copies of the same sample yields a zero t-value and no rejection. -/
theorem identical_samples_zero_t_witness :
    (Basic.t_test sqrtModel cdfModel ppfModel [("a", (1, 1/2, 10))]
        [("a", (1, 1/2, 10))] (1/2) 0 false =
      .ok [("a", ⟨0, 18, 1, 1, false⟩)]) ∧
    ((⟨0, 18, 1, 1, false⟩ : TRes ℚ).t_val = 0 ∧
     (⟨0, 18, 1, 1, false⟩ : TRes ℚ).reject = false) := by
  have hppf : ∀ df : ℚ, 0 ≤ ppfModel (1 - (1/2 : ℚ) / 2) df := by
    intro df
    rw [ppfModel]
    have h : (2 * (1 - (1/2 : ℚ) / 2) - 1) = 1/2 := by norm_num
    rw [h, abs_of_nonneg (by norm_num : (0 : ℚ) ≤ 1/2)]
    norm_num
  have heval : Basic.t_test sqrtModel cdfModel ppfModel [("a", (1, 1/2, 10))]
      [("a", (1, 1/2, 10))] (1/2) 0 false =
      .ok [("a", ⟨0, 18, 1, 1, false⟩)] := by
    norm_num [Basic.t_test, check_data_matching, listSetEq, listSubset,
      mapMKeys, List.lookup, Basic.keyStat, Basic.two_sample_t, pydiv,
      sqrtModel, cdfModel, ppfModel, abs]
  exact ⟨heval,
    (identical_samples_zero_t sqrtModel cdfModel ppfModel
        [("a", (1, 1/2, 10))] (1/2) false hppf).1
      [("a", ⟨0, 18, 1, 1, false⟩)] heval
      ("a", ⟨0, 18, 1, 1, false⟩) (List.mem_singleton.mpr rfl)⟩

/-- C2 counterexample: on a boundary input the absolute t-value equals
the critical value exactly, so the basic t_test stores reject = false
while the stored p-value equals alpha, hence p-value at most alpha does
not coincide with rejection.  The cumulative-distribution and quantile
stand-ins used here form a genuine strictly increasing inverse pair. -/
theorem reject_vs_pval_le_alpha_boundary :
    Basic.t_test sqrtModel cdfModel ppfModel [("a", (3/2, 3/10, 10))]
        [("a", (1, 4/10, 10))] (1/2) 0 false =
      .ok [("a", ⟨1, 18, 1/2, 1, false⟩)] ∧
    ¬((⟨1, 18, 1/2, 1, false⟩ : TRes ℚ).reject = true ↔
      (⟨1, 18, 1/2, 1, false⟩ : TRes ℚ).p_val ≤ 1/2) := by
  constructor
  · norm_num [Basic.t_test, check_data_matching, listSetEq, listSubset,
      mapMKeys, List.lookup, Basic.keyStat, Basic.two_sample_t, pydiv,
      sqrtModel, cdfModel, ppfModel, abs]
  · intro hiff
    have hfalse : (⟨1, 18, 1/2, 1, false⟩ : TRes ℚ).reject = true :=
      hiff.mpr (by norm_num)
    simp at hfalse

omit [FloorRing α] in
/-- C2 amended: for the basic variant, when the cumulative distribution
function stand-in is strictly increasing and the quantile stand-in
inverts it at the upper-tail probability, rejection is equivalent to the
stored p-value being strictly below alpha; at the boundary (absolute
t-value equal to the critical value) the p-value equals alpha and the
test accepts. -/
theorem reject_iff_pval_lt_alpha (sq : α → α) (tCdf tPpf : α → α → α)
    (sample_1 sample_2 : List (String × (α × α × α))) (alpha d : α)
    (skip : Bool)
    (hmono : ∀ df : α, StrictMono (fun x => tCdf x df))
    (hinv : ∀ df : α, tCdf (tPpf (1 - alpha / 2) df) df = 1 - alpha / 2) :
    ∀ stat, Basic.t_test sq tCdf tPpf sample_1 sample_2 alpha d skip =
      .ok stat → ∀ p ∈ stat, (p.2.reject = true ↔ p.2.p_val < alpha) := by
  intro stat h p hp
  rcases basic_mem_stat_shape h hp with ⟨e1, e2, t_val, _, _, _, hshape⟩
  rw [hshape]
  simp only []
  set dfv := e1.2.2 + e2.2.2 - 2 with hdf
  have hcrit := hinv dfv
  by_cases hle : |t_val| ≤ tPpf (1 - alpha / 2) dfv
  · rw [if_pos hle]
    have hc : tCdf |t_val| dfv ≤ 1 - alpha / 2 := by
      rcases lt_or_eq_of_le hle with hlt | heq
      · exact le_of_lt (hcrit ▸ hmono dfv hlt)
      · rw [heq, hcrit]
    simp only [Bool.false_eq_true, false_iff, not_lt]
    linarith
  · rw [if_neg hle]
    have hlt := not_le.mp hle
    have hc : 1 - alpha / 2 < tCdf |t_val| dfv := hcrit ▸ hmono dfv hlt
    simp only [true_iff]
    linarith

/-- Witness for C2 amended: on a concrete non-boundary rational run the
single entry is not rejected and its p-value is not below alpha. -/
theorem reject_iff_pval_lt_alpha_witness :
    Basic.t_test sqrtModel cdfModel ppfModel [("a", (1, 1/2, 10))]
        [("a", (3/2, 1/2, 10))] (1/2) 0 false =
      .ok [("a", ⟨-500/707, 18, 707/1207, 1, false⟩)] ∧
    ((⟨-500/707, 18, 707/1207, 1, false⟩ : TRes ℚ).reject = true ↔
      (⟨-500/707, 18, 707/1207, 1, false⟩ : TRes ℚ).p_val < 1/2) := by
  have heval : Basic.t_test sqrtModel cdfModel ppfModel [("a", (1, 1/2, 10))]
      [("a", (3/2, 1/2, 10))] (1/2) 0 false =
      .ok [("a", ⟨-500/707, 18, 707/1207, 1, false⟩)] := by
    norm_num [Basic.t_test, check_data_matching, listSetEq, listSubset,
      mapMKeys, List.lookup, Basic.keyStat, Basic.two_sample_t, pydiv,
      sqrtModel, cdfModel, ppfModel, abs]
  exact ⟨heval,
    reject_iff_pval_lt_alpha sqrtModel cdfModel ppfModel
      [("a", (1, 1/2, 10))] [("a", (3/2, 1/2, 10))] (1/2) 0 false
      cdfModel_strictMono cdfModel_ppfModel_inv_at_half
      [("a", ⟨-500/707, 18, 707/1207, 1, false⟩)] heval
      ("a", ⟨-500/707, 18, 707/1207, 1, false⟩) (List.mem_singleton.mpr rfl)⟩

omit [FloorRing α] in
/-- C4: the basic-variant t-statistic equals the quotient of the mean
difference minus the discrepancy by the square root of the sum of
squared standard errors whenever that square root is nonzero; and when
the square-root function is exact on the radicand 0.0041, the value at
(1.1, 0.05, 1.2, 0.04, 0) lies within 1e-5 of -1.561738. -/
theorem two_sample_t_formula (sq : α → α) :
    (∀ m1 se1 m2 se2 d : α, sq (se1 ^ 2 + se2 ^ 2) ≠ 0 →
      Basic.two_sample_t sq m1 se1 m2 se2 d =
        .ok (((m1 - m2) - d) / sq (se1 ^ 2 + se2 ^ 2))) ∧
    ((sq ((5/100 : α) ^ 2 + (4/100 : α) ^ 2)) ^ 2 = 41/10000 →
     0 < sq ((5/100 : α) ^ 2 + (4/100 : α) ^ 2) →
     ∀ t : α, Basic.two_sample_t sq (11/10) (5/100) (12/10) (4/100) 0 =
        .ok t →
       |t - (-1561738/1000000)| < 1/100000) := by
  have hform : ∀ m1 se1 m2 se2 d : α, sq (se1 ^ 2 + se2 ^ 2) ≠ 0 →
      Basic.two_sample_t sq m1 se1 m2 se2 d =
        .ok (((m1 - m2) - d) / sq (se1 ^ 2 + se2 ^ 2)) := by
    intro m1 se1 m2 se2 d hne
    rw [Basic.two_sample_t, pydiv, if_neg hne]
  refine ⟨hform, ?_⟩
  intro hs2 hspos t ht
  set s := sq ((5/100 : α) ^ 2 + (4/100 : α) ^ 2) with hsdef
  rw [hform _ _ _ _ _ hspos.ne'] at ht
  have htval : t = (-1/10) / s := by
    have hnum : ((11/10 : α) - 12/10 - 0) = -1/10 := by norm_num
    rw [← Except.ok.inj ht, hnum]
  have ha : (6403124/100000000 : α) < s := by
    by_contra hcon
    push_neg at hcon
    have hsq : s ^ 2 ≤ (6403124/100000000 : α) ^ 2 := by nlinarith
    rw [hs2] at hsq
    norm_num at hsq
  have hb : s < (6403125/100000000 : α) := by
    by_contra hcon
    push_neg at hcon
    have hsq : (6403125/100000000 : α) ^ 2 ≤ s ^ 2 := by nlinarith
    rw [hs2] at hsq
    norm_num at hsq
  have h1 : (1/10 : α) / s < 1561738/1000000 + 1/100000 := by
    rw [div_lt_iff₀ hspos]
    nlinarith
  have h2 : (1561738/1000000 : α) - 1/100000 < (1/10) / s := by
    rw [lt_div_iff₀ hspos]
    nlinarith
  have hsplit : t - (-1561738/1000000) = 1561738/1000000 - (1/10) / s := by
    rw [htval]
    ring
  rw [hsplit, abs_lt]
  constructor
  · linarith
  · linarith

/-- Witness for C4: instantiating the square-root parameter with the
real square root, the hypotheses hold and the concrete basic t-value is
within 1e-5 of -1.561738. -/
theorem two_sample_t_formula_witness :
    ((Real.sqrt ((5/100 : ℝ) ^ 2 + (4/100 : ℝ) ^ 2)) ^ 2 = 41/10000 ∧
     0 < Real.sqrt ((5/100 : ℝ) ^ 2 + (4/100 : ℝ) ^ 2)) ∧
    Basic.two_sample_t Real.sqrt (11/10 : ℝ) (5/100) (12/10) (4/100) 0 =
      .ok (((11/10 - 12/10 : ℝ) - 0) /
        Real.sqrt ((5/100 : ℝ) ^ 2 + (4/100 : ℝ) ^ 2)) ∧
    |(((11/10 - 12/10 : ℝ) - 0) /
        Real.sqrt ((5/100 : ℝ) ^ 2 + (4/100 : ℝ) ^ 2)) -
      (-1561738/1000000)| < 1/100000 := by
  have harg : ((5/100 : ℝ) ^ 2 + (4/100 : ℝ) ^ 2) = 41/10000 := by norm_num
  have hs2 : (Real.sqrt ((5/100 : ℝ) ^ 2 + (4/100 : ℝ) ^ 2)) ^ 2 =
      41/10000 := by
    rw [harg]
    exact Real.sq_sqrt (by norm_num)
  have hspos : 0 < Real.sqrt ((5/100 : ℝ) ^ 2 + (4/100 : ℝ) ^ 2) := by
    rw [harg]
    exact Real.sqrt_pos.mpr (by norm_num)
  have hok := (two_sample_t_formula Real.sqrt).1 (11/10) (5/100) (12/10)
    (4/100) 0 hspos.ne'
  exact ⟨⟨hs2, hspos⟩, hok,
    (two_sample_t_formula Real.sqrt).2 hs2 hspos _ hok⟩

/-- C5: the pooled-variant t-statistic equals the pooled formula rounded
to 5 decimal digits for all inputs whose divisions are defined; the
extended t_test stores the critical value rounded to 5 decimal digits
(the value entering the reject comparison); and when the square-root
parameter is exact on the two radicands involved, the value at
(1.1, 0.05, 3, 1.2, 0.04, 4, 0) lies within 1e-5 of -2.95742. -/
theorem calc_twosample_tvalue_formula (sq : α → α) (tCdf tPpf : α → α → α) :
    (∀ m1 sd1 n1 m2 sd2 n2 d : α, n1 ≠ 0 → n2 ≠ 0 → 0 < n1 + n2 - 2 →
      Ext.calc_twosample_tvalue sq m1 sd1 n1 m2 sd2 n2 d =
        .ok (pyround 5 (((m1 - m2) - d) /
          (sq (((n1 - 1) * sd1 ^ 2 + (n2 - 1) * sd2 ^ 2) / (n1 + n2 - 2)) *
           sq (1 / n1 + 1 / n2))))) ∧
    (∀ (sample_1 sample_2 : List (String × (α × α × α))) (alpha d : α)
        (skip : Bool) stat,
      Ext.t_test sq tCdf tPpf sample_1 sample_2 alpha d skip = .ok stat →
      ∀ p ∈ stat, p.2.t_crit = pyround 5 (tPpf (1 - alpha / 2) p.2.df)) ∧
    ((sq (49/25000 : α)) ^ 2 = 49/25000 → 0 < sq (49/25000 : α) →
     (sq (7/12 : α)) ^ 2 = 7/12 → 0 < sq (7/12 : α) →
     ∀ t : α, Ext.calc_twosample_tvalue sq (11/10) (5/100) 3 (12/10) (4/100)
        4 0 = .ok t →
       |t - (-295742/100000)| < 1/100000) := by
  have hform : ∀ m1 sd1 n1 m2 sd2 n2 d : α, n1 ≠ 0 → n2 ≠ 0 →
      0 < n1 + n2 - 2 →
      Ext.calc_twosample_tvalue sq m1 sd1 n1 m2 sd2 n2 d =
        .ok (pyround 5 (((m1 - m2) - d) /
          (sq (((n1 - 1) * sd1 ^ 2 + (n2 - 1) * sd2 ^ 2) / (n1 + n2 - 2)) *
           sq (1 / n1 + 1 / n2)))) := by
    intro m1 sd1 n1 m2 sd2 n2 d h1 h2 hd
    simp only [Ext.calc_twosample_tvalue, pydiv]
    rw [if_neg hd.ne', if_neg h1, if_neg h2]
  refine ⟨hform, ?_, ?_⟩
  · intro sample_1 sample_2 alpha d skip stat h p hp
    rcases ext_mem_stat_shape h hp with
      ⟨e1, e2, rse1, rse2, t_val, _, _, _, _, _, hshape⟩
    rw [hshape]
  · intro hq1 hq1p hq2 hq2p t ht
    rw [hform (11/10) (5/100) 3 (12/10) (4/100) 4 0 (by norm_num)
      (by norm_num) (by norm_num)] at ht
    have harg1 : ((((3 : α) - 1) * (5/100) ^ 2 + ((4 : α) - 1) * (4/100) ^ 2)
        / ((3 : α) + 4 - 2)) = 49/25000 := by norm_num
    have harg2 : (1 / (3 : α) + 1 / (4 : α)) = 7/12 := by norm_num
    have hnum : (((11/10 : α) - 12/10) - 0) = -1/10 := by norm_num
    rw [harg1, harg2, hnum] at ht
    set s := sq (49/25000 : α) * sq (7/12 : α) with hsdef
    have hs2 : s ^ 2 = 343/300000 := by
      rw [hsdef, mul_pow, hq1, hq2]
      norm_num
    have hspos : 0 < s := mul_pos hq1p hq2p
    have ha : (338132/10000000 : α) < s := by
      by_contra hcon
      push_neg at hcon
      have hsq : s ^ 2 ≤ (338132/10000000 : α) ^ 2 := by nlinarith
      rw [hs2] at hsq
      norm_num at hsq
    have hb : s < (338133/10000000 : α) := by
      by_contra hcon
      push_neg at hcon
      have hsq : (338133/10000000 : α) ^ 2 ≤ s ^ 2 := by nlinarith
      rw [hs2] at hsq
      norm_num at hsq
    have hy : ((-1/10 : α) / s) * 10 ^ 5 = -(10000 / s) := by
      field_simp
      ring
    have hu1 : (10000 : α) / s < 2957425/10 := by
      rw [div_lt_iff₀ hspos]
      nlinarith
    have hu2 : (2957415/10 : α) < 10000 / s := by
      rw [lt_div_iff₀ hspos]
      nlinarith
    have hround : roundHalfEven (((-1/10 : α) / s) * 10 ^ 5) = -295742 := by
      apply roundHalfEven_eq_of_bounds
      · rw [hy]
        push_cast
        linarith
      · rw [hy]
        push_cast
        linarith
    have htval : t = -295742/100000 := by
      rw [← Except.ok.inj ht, pyround, hround]
      push_cast
      norm_num
    rw [htval]
    norm_num

/-- Witness for C5: instantiating the square-root parameter with the
real square root, the hypotheses hold and the concrete pooled t-value is
within 1e-5 of -2.95742. -/
theorem calc_twosample_tvalue_formula_witness :
    ((Real.sqrt (49/25000)) ^ 2 = (49/25000 : ℝ) ∧
     0 < Real.sqrt ((49/25000 : ℝ)) ∧
     (Real.sqrt (7/12)) ^ 2 = (7/12 : ℝ) ∧ 0 < Real.sqrt ((7/12 : ℝ)) ∧
     Ext.calc_twosample_tvalue Real.sqrt (11/10 : ℝ) (5/100) 3 (12/10)
        (4/100) 4 0 =
       .ok (pyround 5 (((11/10 - 12/10 : ℝ) - 0) /
         (Real.sqrt ((((3 : ℝ) - 1) * (5/100) ^ 2 +
             ((4 : ℝ) - 1) * (4/100) ^ 2) / ((3 : ℝ) + 4 - 2)) *
          Real.sqrt (1 / (3 : ℝ) + 1 / (4 : ℝ)))))) ∧
    |pyround 5 (((11/10 - 12/10 : ℝ) - 0) /
         (Real.sqrt ((((3 : ℝ) - 1) * (5/100) ^ 2 +
             ((4 : ℝ) - 1) * (4/100) ^ 2) / ((3 : ℝ) + 4 - 2)) *
          Real.sqrt (1 / (3 : ℝ) + 1 / (4 : ℝ)))) -
      (-295742/100000)| < 1/100000 := by
  have hq1 : (Real.sqrt (49/25000)) ^ 2 = (49/25000 : ℝ) :=
    Real.sq_sqrt (by norm_num)
  have hq1p : 0 < Real.sqrt ((49/25000 : ℝ)) :=
    Real.sqrt_pos.mpr (by norm_num)
  have hq2 : (Real.sqrt (7/12)) ^ 2 = (7/12 : ℝ) :=
    Real.sq_sqrt (by norm_num)
  have hq2p : 0 < Real.sqrt ((7/12 : ℝ)) := Real.sqrt_pos.mpr (by norm_num)
  have hok := (calc_twosample_tvalue_formula Real.sqrt
      (fun x _ => x) (fun x _ => x)).1 (11/10) (5/100) 3 (12/10) (4/100) 4 0
    (by norm_num) (by norm_num) (by norm_num)
  exact ⟨⟨hq1, hq1p, hq2, hq2p, hok⟩,
    (calc_twosample_tvalue_formula Real.sqrt (fun x _ => x)
        (fun x _ => x)).2.2 hq1 hq1p hq2 hq2p _ hok⟩

end Claims

end TTest
